import Mathlib

/-!
Shallow embedding of `src/server.py` (class `StorageServer`), a single node
of a small peer-to-peer file server.  The node state that matters to the
claims is the contents of the directory `self.directory`, modelled as a flat
association list from file names to byte lists (`os.path.join(directory,
file_name)` becomes a key lookup; bytes become `List Nat`).  Network
interaction with one peer is abstracted as a `PeerEvent`: the observable
behaviour of `session.get` on that URL.  Python exceptions that can escape a
handler are modelled with `Except`: aiohttp turns an uncaught exception into
a 500 response, and a raised `web.HTTPNotFound` into a 404 response.
-/

/-- Contents of the node directory: file name to byte contents. -/
abbrev Dir := List (String × List Nat)

/-- A Python value that is either `bytes` or `str` (the except-branch of
`get_from_node` builds the string literal `404: Not Found`). -/
inductive Content where
  | bytes (b : List Nat)
  | str (s : String)
deriving DecidableEq, Repr

/-- Python truthiness of `not content` for the values flowing through
`get_file`: empty bytes and the empty string are falsy. -/
def contentIsFalsy : Content → Bool
  | .bytes b => b.isEmpty
  | .str s => s == ""

/-- The bytes written by `file.write(content)`.  The `str` branch encodes
code points; it is unreachable from `get_from_node` results because the
string content only ever travels with status 404, and only status-200
content is selected and saved. -/
def contentBytes : Content → List Nat
  | .bytes b => b
  | .str s => s.data.map Char.toNat

/-- The dict `{'content': ..., 'status_code': ...}` returned by
`get_from_node`. -/
structure NodeResponse where
  content : Content
  status_code : Nat
deriving DecidableEq, Repr

/-- Observable behaviour of one HTTP GET against one peer: either the peer
answers with a status and body, or the connection fails.  Refused
connections and DNS failures raise `aiohttp.client_exceptions.ClientConnectorError`;
a timeout raises `asyncio.TimeoutError`, which is not a `ClientConnectorError`. -/
inductive PeerEvent where
  | reply (status : Nat) (body : List Nat)
  | connRefused
  | dnsFail
  | timeout
deriving DecidableEq, Repr

/-- Python exceptions relevant here: `asyncio.TimeoutError` escaping
`get_from_node`, and the `ValueError` that `asyncio.wait` raises when its
set of futures is empty. -/
inductive PyExc where
  | timeoutError
  | valueError
deriving DecidableEq, Repr

/-- Outcome of one aiohttp request handler: a returned `web.Response`
(`ok`), a raised `web.HTTPNotFound` which aiohttp answers with 404
(`notFound`), or an uncaught Python exception which aiohttp answers with a
500 (`err`). -/
inductive ServerResult (α : Type) where
  | ok (r : α)
  | notFound
  | err (e : PyExc)
deriving DecidableEq, Repr

/-- The fields of `web.Response(...)` built by `_construct_file_response`:
aiohttp defaults the status to 200. -/
structure Response where
  status : Nat
  body : Content
  content_type : String
  content_disposition : String
deriving DecidableEq, Repr

/-- The constructor arguments of `StorageServer.__init__`. -/
structure StorageServer where
  host : String
  port : Nat
  directory : String
  nodes : List String
  save_file : Bool
deriving DecidableEq, Repr

/-- `StorageServer._construct_file_response`. -/
def _construct_file_response (file_name : String) (content : Content) : Response :=
  { status := 200
    body := content
    content_type := "application/octet-stream"
    content_disposition := "attachment; filename=\"" ++ file_name ++ "\"" }

/-- `StorageServer._read_file`: `os.path.exists` then full read, else
`None`.  The path join against `s.directory` is the key lookup in `fs`, the
contents of that directory. -/
def _read_file (s : StorageServer) (fs : Dir) (file_name : String) : Option (List Nat) :=
  match fs.find? (fun p => p.1 == file_name) with
  | some p => some p.2
  | none => none

/-- `StorageServer._save_file`: `open(path, 'wb')` truncates or creates,
then writes the content, so the entry for `file_name` is replaced. -/
def _save_file (s : StorageServer) (fs : Dir) (content : List Nat) (file_name : String) : Dir :=
  (file_name, content) :: fs.filter (fun p => !(p.1 == file_name))

/-- `StorageServer.get_local`: read the file; `if not content: raise
web.HTTPNotFound()` treats both `None` and empty bytes as a miss; otherwise
answer with `_construct_file_response`.  `none` models the raised
`HTTPNotFound`. -/
def get_local (s : StorageServer) (fs : Dir) (file_name : String) : Option Response :=
  match _read_file s fs file_name with
  | some content =>
      if content.isEmpty then none
      else some (_construct_file_response file_name (.bytes content))
  | none => none

/-- The aiohttp route `web.get('/from_node/{file_name}', self.get_local)`:
the peers of a node call this endpoint, which runs only `get_local`. -/
def handle_from_node (s : StorageServer) (fs : Dir) (file_name : String) :
    ServerResult Response :=
  match get_local s fs file_name with
  | some r => .ok r
  | none => .notFound

/-- `StorageServer.get_from_node`: one GET on
`http://{node}/from_node/{file_name}`.  A reply gives the dict of its body
and status; `ClientConnectorError` (refused connection, DNS failure) is
caught and gives the dict `{'content': '404: Not Found', 'status_code': 404}`;
a timeout raises `asyncio.TimeoutError`, which the `except` clause does not
match, so it escapes the call. -/
def get_from_node (node file_name : String) (ev : PeerEvent) :
    Except PyExc NodeResponse :=
  match ev with
  | .reply status body => .ok { content := .bytes body, status_code := status }
  | .connRefused => .ok { content := .str "404: Not Found", status_code := 404 }
  | .dnsFail => .ok { content := .str "404: Not Found", status_code := 404 }
  | .timeout => .error .timeoutError

/-- The loop of `_get_file_content_from_nodes` over the `done` set:
`done_task.result()` re-raises an exception stored in a task; a result with
status 200 returns its content; otherwise the loop continues and falls
through to `return None`. -/
def scanDone : List (Except PyExc NodeResponse) → Except PyExc (Option Content)
  | [] => .ok none
  | .error e :: _ => .error e
  | .ok r :: rest =>
      if r.status_code == 200 then .ok (some r.content) else scanDone rest

/-- `StorageServer._get_file_content_from_nodes`: one future per entry of
`self.nodes`, `await asyncio.wait(futures)` (which raises `ValueError` when
`self.nodes` is empty, and otherwise waits for all futures), then the scan
of the completed tasks.  `done` is the list of completed task results in
the iteration order of the `done` set, which `asyncio` leaves unspecified;
theorems relate it to `s.nodes` by permutation. -/
def _get_file_content_from_nodes (s : StorageServer)
    (done : List (Except PyExc NodeResponse)) : Except PyExc (Option Content) :=
  if s.nodes.isEmpty then .error .valueError
  else scanDone done

/-- `StorageServer.get_file`, the handler of `web.get('/{file_name}', ...)`:
try `get_local`; on `HTTPNotFound` ask the peers; `if not content: raise
web.HTTPNotFound()`; on truthy content, optionally start the `_save_file`
thread (the returned directory is the state once that write completed), and
answer with `_construct_file_response`.  Returns the handler outcome and
the directory contents afterwards. -/
def get_file (s : StorageServer) (fs : Dir) (file_name : String)
    (done : List (Except PyExc NodeResponse)) : ServerResult Response × Dir :=
  match get_local s fs file_name with
  | some resp => (.ok resp, fs)
  | none =>
      match _get_file_content_from_nodes s done with
      | .error e => (.err e, fs)
      | .ok none => (.notFound, fs)
      | .ok (some content) =>
          if contentIsFalsy content then (.notFound, fs)
          else
            (.ok (_construct_file_response file_name content),
             if s.save_file then _save_file s fs (contentBytes content) file_name else fs)

/-- Selection rule in the words of the spec, for the refinement claim about
the coordinator: iterate the completed outcomes in completion order and
return the content of the first outcome with status `Found` (HTTP 200);
`none` is `AllMissed`. -/
def firstFoundSpec : List NodeResponse → Option Content
  | [] => none
  | r :: rest => if r.status_code == 200 then some r.content else firstFoundSpec rest

/-! Helper lemmas shared by the claim theorems. -/

/-- A nonempty list has `isEmpty = false`. -/
theorem isEmpty_eq_false_of_ne_nil {α : Type} {l : List α} (h : l ≠ []) :
    l.isEmpty = false := by
  cases l with
  | nil => exact absurd rfl h
  | cons a t => rfl

/-- On a list of completed task results none of which stores an exception,
the scan of the `done` set computes exactly the selection rule of the
spec. -/
theorem scanDone_map_ok (rs : List NodeResponse) :
    scanDone (rs.map Except.ok) = .ok (firstFoundSpec rs) := by
  induction rs with
  | nil => rfl
  | cons r rest ih =>
      cases hb : r.status_code == 200 with
      | true => simp [scanDone, firstFoundSpec, hb]
      | false => simp [scanDone, firstFoundSpec, hb, ih]

/-- The selection yields `none` exactly when no completed outcome has
status 200. -/
theorem firstFoundSpec_eq_none_iff (rs : List NodeResponse) :
    firstFoundSpec rs = none ↔ ∀ r ∈ rs, r.status_code ≠ 200 := by
  induction rs with
  | nil => simp [firstFoundSpec]
  | cons r rest ih =>
      cases hb : r.status_code == 200 with
      | true =>
          have h200 : r.status_code = 200 := by simpa using hb
          simp [firstFoundSpec, hb, h200]
      | false =>
          have h200 : r.status_code ≠ 200 := by simpa using hb
          simp [firstFoundSpec, hb, ih, h200]

/-- A selected content is the content of some completed outcome with
status 200. -/
theorem firstFoundSpec_some_mem {rs : List NodeResponse} {c : Content}
    (h : firstFoundSpec rs = some c) :
    ∃ r ∈ rs, r.status_code = 200 ∧ r.content = c := by
  induction rs with
  | nil => simp [firstFoundSpec] at h
  | cons r rest ih =>
      cases hb : r.status_code == 200 with
      | true =>
          simp only [firstFoundSpec, hb, if_true] at h
          injection h with h2
          exact ⟨r, by simp, by simpa using hb, h2⟩
      | false =>
          simp only [firstFoundSpec, hb] at h
          obtain ⟨r2, hr2, h200, hc2⟩ := ih h
          exact ⟨r2, by simp [hr2], h200, hc2⟩

/-- A response produced by `get_local` has status 200. -/
theorem get_local_some_status {s : StorageServer} {fs : Dir} {file_name : String}
    {r : Response} (h : get_local s fs file_name = some r) : r.status = 200 := by
  cases hr : _read_file s fs file_name with
  | none => simp [get_local, hr] at h
  | some b =>
      cases hb : b.isEmpty with
      | true => simp [get_local, hr, hb] at h
      | false =>
          simp only [get_local, hr, hb, if_false, Bool.false_eq_true,
            Option.some.injEq] at h
          rw [← h]
          rfl

/-! Claim theorems. -/

/-- Claim C2, counterexample to the claim as stated: the local directory
contains `x` with bytes `B = []` (an empty file), yet GET `/x` does not
answer 200 with body `B`; with no peers configured the handler raises
`ValueError` out of the empty fan-out, because `if not content` treats the
empty byte string like absence. -/
theorem claim_C2_counterexample :
    get_file ⟨"h", 8080, "d", [], false⟩ [("x", [])] "x" [] =
      (.err .valueError, [("x", [])]) ∧
    (ServerResult.err PyExc.valueError : ServerResult Response) ≠
      .ok (_construct_file_response "x" (.bytes [])) :=
  ⟨rfl, by decide⟩

/-- Claim C2 as amended: for every file name present in the local directory
with nonempty bytes `B`, GET on the file name answers 200 with body exactly
`B`, for every peer configuration and every set of completed peer results,
and the directory is left unchanged (peers are never consulted on a local
hit). -/
theorem claim_C2_local_hit (s : StorageServer) (fs : Dir) (file_name : String)
    (done : List (Except PyExc NodeResponse)) (B : List Nat)
    (hread : _read_file s fs file_name = some B) (hB : B ≠ []) :
    get_file s fs file_name done =
      (.ok (_construct_file_response file_name (.bytes B)), fs) := by
  have hloc : get_local s fs file_name =
      some (_construct_file_response file_name (.bytes B)) := by
    simp [get_local, hread, isEmpty_eq_false_of_ne_nil hB]
  simp [get_file, hloc]

/-- Witness for the amended claim C2 at a concrete server, directory and
file. -/
theorem claim_C2_local_hit_witness :
    get_file ⟨"h", 8080, "d", ["n1"], true⟩ [("x", [7])] "x" [] =
      (.ok (_construct_file_response "x" (.bytes [7])), [("x", [7])]) :=
  claim_C2_local_hit _ _ _ _ [7] rfl (by decide)

/-- Claim C4, counterexample to the claim as stated: with an empty peer set
and the file absent locally, GET `/x` does not answer 404; `asyncio.wait`
raises `ValueError` on an empty set of futures, which escapes the handler
(aiohttp answers 500). -/
theorem claim_C4_counterexample :
    get_file ⟨"h", 8080, "d", [], false⟩ [] "x" [] = (.err .valueError, []) ∧
    (ServerResult.err PyExc.valueError : ServerResult Response) ≠ .notFound :=
  ⟨rfl, by decide⟩

/-- Claim C4 as amended: for every file name, when the configured peer set
is empty and the local lookup misses, the fallback resolution raises
`ValueError` (from `asyncio.wait` on an empty future set) instead of
returning the all-missed outcome, so the GET handler ends in an uncaught
exception rather than a 404; the directory is unchanged. -/
theorem claim_C4_empty_peers (s : StorageServer) (fs : Dir) (file_name : String)
    (done : List (Except PyExc NodeResponse))
    (hnodes : s.nodes = []) (hloc : get_local s fs file_name = none) :
    get_file s fs file_name done = (.err .valueError, fs) := by
  simp [get_file, hloc, _get_file_content_from_nodes, hnodes]

/-- Witness for the amended claim C4 at a concrete server and directory. -/
theorem claim_C4_empty_peers_witness :
    get_file ⟨"h", 8080, "d", [], true⟩ [("y", [1])] "x" [] =
      (.err .valueError, [("y", [1])]) :=
  claim_C4_empty_peers _ _ _ _ rfl rfl

/-- Claim C5, counterexample to the claim as stated: a peer fetch does not
map every connection failure to a non-fatal miss.  A timeout raises
`asyncio.TimeoutError`, which the `except` clause (matching only
`aiohttp.client_exceptions.ClientConnectorError`) does not catch, so the
fetch raises out of the call, unlike a refused connection. -/
theorem claim_C5_counterexample :
    get_from_node "n1" "x" .timeout = .error .timeoutError ∧
    get_from_node "n1" "x" .connRefused =
      .ok { content := .str "404: Not Found", status_code := 404 } :=
  ⟨rfl, rfl⟩

/-- Claim C5 as amended: a single peer fetch maps an HTTP 200 reply to an
outcome with status 200 carrying the reply bytes, an HTTP 404 reply to an
outcome with status 404, and a refused connection or DNS failure (both
`ClientConnectorError`) to a non-fatal miss outcome with status 404; but a
timeout raises `asyncio.TimeoutError` out of the call. -/
theorem claim_C5_peer_fetch_mapping (node file_name : String) (b : List Nat) :
    get_from_node node file_name (.reply 200 b) =
      .ok { content := .bytes b, status_code := 200 } ∧
    get_from_node node file_name (.reply 404 b) =
      .ok { content := .bytes b, status_code := 404 } ∧
    get_from_node node file_name .connRefused =
      .ok { content := .str "404: Not Found", status_code := 404 } ∧
    get_from_node node file_name .dnsFail =
      .ok { content := .str "404: Not Found", status_code := 404 } ∧
    get_from_node node file_name .timeout = .error .timeoutError :=
  ⟨rfl, rfl, rfl, rfl, rfl⟩

/-- Claim C6, confirmed: the `/from_node/{file_name}` endpoint runs only
`get_local`.  Its outcome is the same for every server configuration (any
host, port, peer set and cache flag) over the same directory contents, it
never consults peers or the fallback coordinator, and it is fully
determined by the local store: 404 on a miss (including an empty file), or
200 with exactly the locally stored bytes. -/
theorem claim_C6_from_node_one_hop (s t : StorageServer) (fs : Dir) (file_name : String) :
    handle_from_node s fs file_name = handle_from_node t fs file_name ∧
    (handle_from_node s fs file_name = .notFound ∨
      ∃ b, _read_file s fs file_name = some b ∧ b.isEmpty = false ∧
        handle_from_node s fs file_name =
          .ok (_construct_file_response file_name (.bytes b))) := by
  refine ⟨rfl, ?_⟩
  cases h : _read_file s fs file_name with
  | none => left; simp [handle_from_node, get_local, h]
  | some b =>
      cases hb : b.isEmpty with
      | true => left; simp [handle_from_node, get_local, h, hb]
      | false =>
          right
          exact ⟨b, rfl, hb, by simp [handle_from_node, get_local, h, hb]⟩

/-- Claim C10, confirmed: empty content is conflated with absence.  When
the local directory holds `file_name` with zero-length contents, the local
lookup misses (`/from_node/{file_name}` answers 404 and GET on the file
name proceeds to the fallback), and when the fallback selects empty peer
bytes, or selects nothing, the GET answers 404. -/
theorem claim_C10_empty_is_absent (s : StorageServer) (fs : Dir) (file_name : String)
    (done : List (Except PyExc NodeResponse))
    (hread : _read_file s fs file_name = some []) :
    get_local s fs file_name = none ∧
    handle_from_node s fs file_name = .notFound ∧
    (_get_file_content_from_nodes s done = .ok (some (.bytes [])) →
      get_file s fs file_name done = (.notFound, fs)) ∧
    (_get_file_content_from_nodes s done = .ok none →
      get_file s fs file_name done = (.notFound, fs)) := by
  have hloc : get_local s fs file_name = none := by simp [get_local, hread]
  refine ⟨hloc, by simp [handle_from_node, hloc], ?_, ?_⟩
  · intro hc
    simp [get_file, hloc, hc, contentIsFalsy]
  · intro hc
    simp [get_file, hloc, hc]

/-- Witness for claim C10: a directory holding an empty `x`, one peer whose
completed fetch returned 200 with empty bytes; the local lookup misses and
the GET answers 404. -/
theorem claim_C10_empty_is_absent_witness :
    get_local ⟨"h", 8080, "d", ["n1"], true⟩ [("x", [])] "x" = none ∧
    handle_from_node ⟨"h", 8080, "d", ["n1"], true⟩ [("x", [])] "x" = .notFound ∧
    get_file ⟨"h", 8080, "d", ["n1"], true⟩ [("x", [])] "x"
        [.ok { content := .bytes [], status_code := 200 }] =
      (.notFound, [("x", [])]) := by
  have h := claim_C10_empty_is_absent ⟨"h", 8080, "d", ["n1"], true⟩ [("x", [])] "x"
      [.ok { content := .bytes [], status_code := 200 }] rfl
  exact ⟨h.1, h.2.1, h.2.2.1 rfl⟩

/-- Claim C7, confirmed: with caching enabled, when the local lookup missed
and the fallback produced nonempty bytes `B`, the handler answers 200 with
body `B` and the directory after the completed background write is
`_save_file` of exactly those bytes under exactly that name; a subsequent
local read of the name returns `B`, and a subsequent local lookup answers
with the same 200 response. -/
theorem claim_C7_cache_population (s : StorageServer) (fs : Dir) (file_name : String)
    (done : List (Except PyExc NodeResponse)) (B : List Nat)
    (hsave : s.save_file = true)
    (hloc : get_local s fs file_name = none)
    (hcoord : _get_file_content_from_nodes s done = .ok (some (.bytes B)))
    (hB : B ≠ []) :
    get_file s fs file_name done =
      (.ok (_construct_file_response file_name (.bytes B)),
        _save_file s fs B file_name) ∧
    _read_file s (_save_file s fs B file_name) file_name = some B ∧
    get_local s (_save_file s fs B file_name) file_name =
      some (_construct_file_response file_name (.bytes B)) := by
  have hfalsy : contentIsFalsy (.bytes B) = false := by
    simp [contentIsFalsy, isEmpty_eq_false_of_ne_nil hB]
  have hr : _read_file s (_save_file s fs B file_name) file_name = some B := by
    simp [_read_file, _save_file, List.find?]
  refine ⟨?_, hr, ?_⟩
  · simp [get_file, hloc, hcoord, hfalsy, hsave, contentBytes]
  · simp [get_local, hr, isEmpty_eq_false_of_ne_nil hB]

/-- Witness for claim C7: empty directory, one peer whose completed fetch
returned 200 with bytes `[7]`; after the write, reading `x` locally gives
`[7]`. -/
theorem claim_C7_cache_population_witness :
    get_file ⟨"h", 8080, "d", ["n1"], true⟩ [] "x"
        [.ok { content := .bytes [7], status_code := 200 }] =
      (.ok (_construct_file_response "x" (.bytes [7])),
        _save_file ⟨"h", 8080, "d", ["n1"], true⟩ [] [7] "x") ∧
    _read_file ⟨"h", 8080, "d", ["n1"], true⟩
      (_save_file ⟨"h", 8080, "d", ["n1"], true⟩ [] [7] "x") "x" = some [7] ∧
    get_local ⟨"h", 8080, "d", ["n1"], true⟩
        (_save_file ⟨"h", 8080, "d", ["n1"], true⟩ [] [7] "x") "x" =
      some (_construct_file_response "x" (.bytes [7])) :=
  claim_C7_cache_population _ _ _ _ [7] rfl rfl rfl (by decide)

/-- Claim C8, confirmed: the local directory is written only as cache
population.  Whenever handling GET on a file name changes the directory,
the cache flag was enabled, the local lookup had missed, the fallback had
selected some truthy content, the new directory is exactly `_save_file` of
that content under that name, and the handler answered 200 with that
content.  In every other case (flag disabled, local hit, total miss,
raised exception) the directory is unchanged. -/
theorem claim_C8_frame (s : StorageServer) (fs : Dir) (file_name : String)
    (done : List (Except PyExc NodeResponse))
    (hchg : (get_file s fs file_name done).2 ≠ fs) :
    s.save_file = true ∧ get_local s fs file_name = none ∧
    ∃ c, _get_file_content_from_nodes s done = .ok (some c) ∧
      contentIsFalsy c = false ∧
      (get_file s fs file_name done).2 = _save_file s fs (contentBytes c) file_name ∧
      (get_file s fs file_name done).1 = .ok (_construct_file_response file_name c) := by
  cases hloc : get_local s fs file_name with
  | some r => exact absurd (by simp [get_file, hloc]) hchg
  | none =>
      cases hc : _get_file_content_from_nodes s done with
      | error e => exact absurd (by simp [get_file, hloc, hc]) hchg
      | ok copt =>
          cases copt with
          | none => exact absurd (by simp [get_file, hloc, hc]) hchg
          | some c =>
              cases hf : contentIsFalsy c with
              | true => exact absurd (by simp [get_file, hloc, hc, hf]) hchg
              | false =>
                  cases hs : s.save_file with
                  | false => exact absurd (by simp [get_file, hloc, hc, hf, hs]) hchg
                  | true =>
                      refine ⟨rfl, rfl, c, rfl, hf, ?_, ?_⟩ <;>
                        simp [get_file, hloc, hc, hf, hs]

/-- Witness for claim C8: a successful fallback with caching enabled does
change the directory, in exactly the way the theorem describes. -/
theorem claim_C8_frame_witness :
    (⟨"h", 8080, "d", ["n1"], true⟩ : StorageServer).save_file = true ∧
    get_local ⟨"h", 8080, "d", ["n1"], true⟩ [] "x" = none ∧
    ∃ c, _get_file_content_from_nodes ⟨"h", 8080, "d", ["n1"], true⟩
        [.ok { content := .bytes [7], status_code := 200 }] = .ok (some c) ∧
      contentIsFalsy c = false ∧
      (get_file ⟨"h", 8080, "d", ["n1"], true⟩ [] "x"
          [.ok { content := .bytes [7], status_code := 200 }]).2 =
        _save_file ⟨"h", 8080, "d", ["n1"], true⟩ [] (contentBytes c) "x" ∧
      (get_file ⟨"h", 8080, "d", ["n1"], true⟩ [] "x"
          [.ok { content := .bytes [7], status_code := 200 }]).1 =
        .ok (_construct_file_response "x" c) :=
  claim_C8_frame _ _ _ _ (by decide)

/-- Claim C3, confirmed: for a nonempty peer set, the coordinator launches
one fetch per configured peer and waits for all of them, so the completed
outcomes are a permutation of one outcome per peer (`outcomes.length`
equals the number of peers); the coordinator then returns exactly the
spec selection `firstFoundSpec` over the completion order: the content of
the first completed outcome with status 200, and `none` (all missed)
exactly when no completed outcome has status 200. -/
theorem claim_C3_coordinator (s : StorageServer) (file_name : String)
    (env : String → PeerEvent) (outcomes : List NodeResponse)
    (hne : s.nodes ≠ [])
    (hperm : (outcomes.map Except.ok).Perm
      (s.nodes.map (fun n => get_from_node n file_name (env n)))) :
    outcomes.length = s.nodes.length ∧
    _get_file_content_from_nodes s (outcomes.map Except.ok) =
      .ok (firstFoundSpec outcomes) ∧
    (firstFoundSpec outcomes = none ↔ ∀ r ∈ outcomes, r.status_code ≠ 200) ∧
    (∀ c, firstFoundSpec outcomes = some c →
      ∃ r ∈ outcomes, r.status_code = 200 ∧ r.content = c) := by
  refine ⟨?_, ?_, firstFoundSpec_eq_none_iff outcomes,
    fun c hc => firstFoundSpec_some_mem hc⟩
  · have hlen := hperm.length_eq
    simpa using hlen
  · simp [_get_file_content_from_nodes, isEmpty_eq_false_of_ne_nil hne,
      scanDone_map_ok]

/-- Witness for claim C3: one peer answering 404; the coordinator returns
the all-missed outcome. -/
theorem claim_C3_coordinator_witness :
    ([{ content := .bytes [], status_code := 404 }] : List NodeResponse).length =
      (⟨"h", 8080, "d", ["n1"], false⟩ : StorageServer).nodes.length ∧
    _get_file_content_from_nodes ⟨"h", 8080, "d", ["n1"], false⟩
        (([{ content := .bytes [], status_code := 404 }] : List NodeResponse).map Except.ok) =
      .ok (firstFoundSpec [{ content := .bytes [], status_code := 404 }]) ∧
    (firstFoundSpec [{ content := .bytes [], status_code := 404 }] = none ↔
      ∀ r ∈ ([{ content := .bytes [], status_code := 404 }] : List NodeResponse),
        r.status_code ≠ 200) ∧
    (∀ c, firstFoundSpec [{ content := .bytes [], status_code := 404 }] = some c →
      ∃ r ∈ ([{ content := .bytes [], status_code := 404 }] : List NodeResponse),
        r.status_code = 200 ∧ r.content = c) :=
  claim_C3_coordinator ⟨"h", 8080, "d", ["n1"], false⟩ "x"
    (fun _ => .reply 404 []) [{ content := .bytes [], status_code := 404 }]
    (by decide) (List.Perm.refl _)

/-- Claim C9, counterexample to the claim as stated: a connection failure
of the timeout kind is not absorbed.  With one peer whose fetch timed out,
the stored `asyncio.TimeoutError` is re-raised by `done_task.result()` and
escapes the GET handler, so the outcome is neither 200 nor 404 (aiohttp
answers 500). -/
theorem claim_C9_counterexample :
    get_from_node "n1" "x" .timeout = .error .timeoutError ∧
    get_file ⟨"h", 8080, "d", ["n1"], false⟩ [] "x" [.error .timeoutError] =
      (.err .timeoutError, []) ∧
    (ServerResult.err PyExc.timeoutError : ServerResult Response) ≠ .notFound :=
  ⟨rfl, rfl, by decide⟩

/-- Claim C9 as amended: for a nonempty peer set, when every launched fetch
completes with an outcome dict (replies, refused connections and DNS
failures, but no timeout and no other escaping exception), the GET handler
produces only a 200 response or a 404, never an uncaught exception. -/
theorem claim_C9_only_200_or_404 (s : StorageServer) (fs : Dir) (file_name : String)
    (env : String → PeerEvent) (outcomes : List NodeResponse)
    (hne : s.nodes ≠ [])
    (hperm : (outcomes.map Except.ok).Perm
      (s.nodes.map (fun n => get_from_node n file_name (env n)))) :
    (∃ r, (get_file s fs file_name (outcomes.map Except.ok)).1 = .ok r ∧
      r.status = 200) ∨
    (get_file s fs file_name (outcomes.map Except.ok)).1 = .notFound := by
  cases hloc : get_local s fs file_name with
  | some r =>
      left
      exact ⟨r, by simp [get_file, hloc], get_local_some_status hloc⟩
  | none =>
      have hco : _get_file_content_from_nodes s (outcomes.map Except.ok) =
          .ok (firstFoundSpec outcomes) := by
        simp [_get_file_content_from_nodes, isEmpty_eq_false_of_ne_nil hne,
          scanDone_map_ok]
      cases hf : firstFoundSpec outcomes with
      | none => right; simp [get_file, hloc, hco, hf]
      | some c =>
          cases hfl : contentIsFalsy c with
          | true => right; simp [get_file, hloc, hco, hf, hfl]
          | false =>
              left
              refine ⟨_construct_file_response file_name c, ?_, rfl⟩
              simp [get_file, hloc, hco, hf, hfl]

/-- Witness for the amended claim C9: one peer answering 404 with an empty
body; the GET answers 404. -/
theorem claim_C9_only_200_or_404_witness :
    (∃ r, (get_file ⟨"h", 8080, "d", ["n1"], false⟩ [] "x"
        (([{ content := .bytes [], status_code := 404 }] : List NodeResponse).map
          Except.ok)).1 = .ok r ∧ r.status = 200) ∨
    (get_file ⟨"h", 8080, "d", ["n1"], false⟩ [] "x"
        (([{ content := .bytes [], status_code := 404 }] : List NodeResponse).map
          Except.ok)).1 = .notFound :=
  claim_C9_only_200_or_404 ⟨"h", 8080, "d", ["n1"], false⟩ [] "x"
    (fun _ => .reply 404 []) [{ content := .bytes [], status_code := 404 }]
    (by decide) (List.Perm.refl _)

/-- Claim C1, counterexample to the claim as stated: two reachable peers
hold divergent bytes under the same name; `x` is present with bytes `[2]`
on the reachable peer `n2` (its local-only endpoint returns 200 with body
`[2]`), yet in the completion order where `n1` finished first the GET
answers 200 with body `[1]`, not `[2]`. -/
theorem claim_C1_counterexample :
    [get_from_node "n1" "x" (.reply 200 [1]), get_from_node "n2" "x" (.reply 200 [2])] =
      [.ok { content := .bytes [1], status_code := 200 },
       .ok { content := .bytes [2], status_code := 200 }] ∧
    get_file ⟨"h", 8080, "d", ["n1", "n2"], false⟩ [] "x"
        [.ok { content := .bytes [1], status_code := 200 },
         .ok { content := .bytes [2], status_code := 200 }] =
      (.ok (_construct_file_response "x" (.bytes [1])), []) ∧
    _construct_file_response "x" (.bytes [1]) ≠
      _construct_file_response "x" (.bytes [2]) :=
  ⟨rfl, rfl, by decide⟩

/-- Claim C1 as amended: if the file name is absent locally, every launched
fetch completes with an outcome dict, some reachable configured peer
returns 200 with body `B`, `B` is nonempty, and every completed outcome
with status 200 carries exactly `B` (no divergent peer content), then GET
on the file name answers 200 with body exactly `B`. -/
theorem claim_C1_fallback_success (s : StorageServer) (fs : Dir) (file_name : String)
    (env : String → PeerEvent) (outcomes : List NodeResponse) (B : List Nat)
    (hread : _read_file s fs file_name = none)
    (hperm : (outcomes.map Except.ok).Perm
      (s.nodes.map (fun n => get_from_node n file_name (env n))))
    (hpeer : ∃ n ∈ s.nodes, env n = .reply 200 B)
    (huniq : ∀ r ∈ outcomes, r.status_code = 200 → r.content = .bytes B)
    (hB : B ≠ []) :
    (get_file s fs file_name (outcomes.map Except.ok)).1 =
      .ok (_construct_file_response file_name (.bytes B)) := by
  obtain ⟨n, hn, henv⟩ := hpeer
  have hloc : get_local s fs file_name = none := by simp [get_local, hread]
  have hne : s.nodes ≠ [] := by
    intro h0
    rw [h0] at hn
    simp at hn
  have hmem : ({ content := .bytes B, status_code := 200 } : NodeResponse) ∈ outcomes := by
    have h1 : (Except.ok ({ content := .bytes B, status_code := 200 } : NodeResponse) :
        Except PyExc NodeResponse) ∈
        s.nodes.map (fun m => get_from_node m file_name (env m)) := by
      refine List.mem_map.mpr ⟨n, hn, ?_⟩
      rw [henv]
      rfl
    have h2 := hperm.mem_iff.mpr h1
    obtain ⟨r, hr, heq⟩ := List.mem_map.mp h2
    injection heq with h3
    exact h3 ▸ hr
  obtain ⟨c, hc⟩ : ∃ c, firstFoundSpec outcomes = some c := by
    cases hf : firstFoundSpec outcomes with
    | some c => exact ⟨c, rfl⟩
    | none => exact absurd rfl ((firstFoundSpec_eq_none_iff outcomes).mp hf _ hmem)
  obtain ⟨r, hrmem, hr200, hrc⟩ := firstFoundSpec_some_mem hc
  have hcB : c = Content.bytes B := by
    rw [← hrc]
    exact huniq r hrmem hr200
  subst hcB
  have hco : _get_file_content_from_nodes s (outcomes.map Except.ok) =
      .ok (some (.bytes B)) := by
    simp [_get_file_content_from_nodes, isEmpty_eq_false_of_ne_nil hne,
      scanDone_map_ok, hc]
  have hfl : contentIsFalsy (.bytes B) = false := by
    simp [contentIsFalsy, isEmpty_eq_false_of_ne_nil hB]
  simp [get_file, hloc, hco, hfl]

/-- Witness for the amended claim C1: two peers, both reachable with bytes
`[7]`; the GET answers 200 with body `[7]`. -/
theorem claim_C1_fallback_success_witness :
    (get_file ⟨"h", 8080, "d", ["n1", "n2"], false⟩ [] "x"
        (([{ content := .bytes [7], status_code := 200 },
            { content := .bytes [7], status_code := 200 }] : List NodeResponse).map
          Except.ok)).1 =
      .ok (_construct_file_response "x" (.bytes [7])) :=
  claim_C1_fallback_success ⟨"h", 8080, "d", ["n1", "n2"], false⟩ [] "x"
    (fun _ => .reply 200 [7])
    [{ content := .bytes [7], status_code := 200 },
     { content := .bytes [7], status_code := 200 }] [7]
    rfl (List.Perm.refl _) ⟨"n1", by simp, rfl⟩ (by decide) (by decide)
